import Mathlib

/-!
Verification of the Usage Ledger Engine of the thermo-tracker repository
(`src/usage_manager.py`, class `UsageGenerator`), against its specification.

The worksheet (openpyxl) is modelled as an association list of cells addressed
by (row, column), 1-indexed, plus a list of merged rectangular regions.
Writing a cell prepends to the list; reading finds the most recent write.
`maxRow` mirrors openpyxl's `max_row`: the highest row holding any created
cell, and 1 for a sheet with no cells (openpyxl never reports less than 1).

Numeric cell contents (coefficients, raw readings, actual values, totals) are
modelled over an arbitrary commutative ring `α`, covering both the integer and
the float readings the program handles; concrete witnesses instantiate `α := ℤ`.
-/

/-- Content of one worksheet cell: a number or a string. -/
inductive Value (α : Type) where
  | num (x : α)
  | str (s : String)
  deriving DecidableEq

/-- A worksheet: cells written so far (latest write first) and merged regions
(start_row, end_row, start_column, end_column), as in openpyxl `merge_cells`. -/
structure Sheet (α : Type) where
  cells : List ((Nat × Nat) × Value α)
  merges : List (Nat × Nat × Nat × Nat)
  deriving DecidableEq

/-- Looks up the most recently written value at (row, column). -/
def lookupCell {α : Type} : List ((Nat × Nat) × Value α) → Nat → Nat → Option (Value α)
  | [], _, _ => none
  | (k, v) :: rest, r, c => if k = (r, c) then some v else lookupCell rest r c

/-- Reads the cell at (row r, column c); `none` when the cell was never written. -/
def Sheet.get {α : Type} (s : Sheet α) (r c : Nat) : Option (Value α) :=
  lookupCell s.cells r c

/-- Writes value v at (row r, column c), mirroring `worksheet.cell(row, column, value)`. -/
def Sheet.set {α : Type} (s : Sheet α) (r c : Nat) (v : Value α) : Sheet α :=
  { s with cells := ((r, c), v) :: s.cells }

/-- Mirrors openpyxl `worksheet.max_row`: highest row with a created cell, at least 1. -/
def Sheet.maxRow {α : Type} (s : Sheet α) : Nat :=
  s.cells.foldr (fun e m => max e.1.1 m) 1

/-- Session configuration data relevant to the usage generator, mirroring the
JSON config dictionary keys RADIATORS_OWNED, START_ROW and LAST_START_ROW.
The two row keys are absent (`none`) before their first write. -/
structure Config where
  radiators_owned : Nat
  start_row : Option Nat
  last_start_row : Option Nat
  deriving DecidableEq

/-- Mirrors `UsageGenerator._update_start_rows`: computes the new block's start
row as `worksheet.max_row + 1`, reads the previous run's recorded start row
(defaulting to the just-computed one when no record exists), stores both in the
config and marks the config as needing an update (the returned Bool). -/
def update_start_rows {α : Type} (s : Sheet α) (cfg : Config) (_upd : Bool) : Config × Bool :=
  let start_row := s.maxRow + 1
  let last_start_row := cfg.start_row.getD start_row
  ({ cfg with start_row := some start_row, last_start_row := some last_start_row }, true)

/-- Mirrors `UsageGenerator._fill_col`: for each of k rows starting at `row`,
computes a value from the current sheet state (the getter models both pure
user input and sheet-dependent computation) and writes it in column `col`.
Returns `none` when the getter fails (a read of a missing cell, which in the
source would raise). -/
def fill_col {α : Type} (f : Sheet α → Nat → Option (Value α)) (col : Nat) :
    Sheet α → Nat → Nat → Option (Sheet α)
  | s, _, 0 => some s
  | s, row, k + 1 =>
    match f s row with
    | some v => fill_col f col (s.set row col v) (row + 1) k
    | none => none

/-- Mirrors `UsageGenerator._fill_dates`: writes one already-formatted date
string into column 1 (the date column) of the `n` radiator rows of the block
and of the following total row, i.e. rows `start .. start + n` inclusive
(the source iterates `range(start_row, radiators_owned + start_row + 1)`). -/
def fill_dates {α : Type} (s : Sheet α) (date : String) (start n : Nat) : Option (Sheet α) :=
  fill_col (fun _ _ => some (Value.str date)) 1 s start (n + 1)

/-- Mirrors `UsageGenerator._compute_actual_value`: reads the coefficient
(column 4) and the raw reading (column 5) of a row and returns their product;
`none` when either cell is missing or non-numeric (where the source would
raise on the multiplication). -/
def compute_actual_value {α : Type} [Mul α] (s : Sheet α) (row : Nat) : Option (Value α) :=
  match s.get row 4, s.get row 5 with
  | some (Value.num coefficient), some (Value.num raw_reading) =>
      some (Value.num (coefficient * raw_reading))
  | _, _ => none

/-- Mirrors `UsageGenerator._get_actual_values`: fills column 6 of the block's
device rows (`start .. start + n - 1`) with each row's computed actual value. -/
def get_actual_values {α : Type} [Mul α] (s : Sheet α) (start n : Nat) : Option (Sheet α) :=
  fill_col compute_actual_value 6 s start n

/-- Mirrors the generator expression in `UsageGenerator._get_total`: left fold
of the column-6 values over rows `start .. start + k - 1`, starting from 0 as
Python's `sum` does; `none` when a cell is missing or non-numeric. -/
def sum_actual_values {α : Type} [Add α] (s : Sheet α) (start : Nat) : Nat → Option α → Option α
  | 0, acc => acc
  | k + 1, acc =>
    match sum_actual_values s start k acc, s.get (start + k) 6 with
    | some a, some (Value.num v) => some (a + v)
    | _, _ => none

/-- Mirrors `UsageGenerator._get_total`: sums the actual values of the block's
device rows and writes the total once, in column 7 of the row immediately
below the last device row (`start + n`). -/
def get_total {α : Type} [Add α] [Zero α] (s : Sheet α) (start n : Nat) : Option (Sheet α) :=
  match sum_actual_values s start n (some 0) with
  | some total_value => some (s.set (start + n) 7 (Value.num total_value))
  | none => none

/-- Mirrors `UsageGenerator._merge_valve_cells`: merges column 9 (notes) over
the block's device rows, `start .. start + n - 1`. -/
def merge_valve_cells {α : Type} (s : Sheet α) (start n : Nat) : Sheet α :=
  { s with merges := (start, start + n - 1, 9, 9) :: s.merges }

/-- Mirrors `UsageGenerator._insert_note`: writes the note at the block's
start row in column 9 (cell formatting is not modelled). -/
def insert_note {α : Type} (s : Sheet α) (start_row : Nat) (note : String) : Sheet α :=
  s.set start_row 9 (Value.str note)

/-- Mirrors `UsageGenerator._get_notes`: a single yes/no gate decides between
the user's free-text note (`some note`) and the default text (`none`); then
the notes region is merged and the chosen text written at the block's
start row. -/
def get_notes {α : Type} (s : Sheet α) (start n : Nat) (user_note : Option String) : Sheet α :=
  let note := user_note.getD "No additional notes."
  insert_note (merge_valve_cells s start n) start note

/-- Mirrors `UsageGenerator._add_blank_lines`: appends k rows each holding an
empty string in column 1, one past the current maximum row (the source runs
this with k = 3). -/
def add_blank_lines {α : Type} : Sheet α → Nat → Sheet α
  | s, 0 => s
  | s, k + 1 => add_blank_lines (s.set (s.maxRow + 1) 1 (Value.str "")) k

/-- One radiator of the registry file: name, ID and coefficient, in the
column order of `RegistryExcelMeta.HEADERS`. -/
structure Device (α : Type) where
  name : String
  id : α
  coefficient : α
  deriving DecidableEq

/-- One iteration of the loop in `UsageGenerator._fill_registry_data`: writes
one registry row's three values at columns 2, 3, 4 of row `max_row + 1`. -/
def fill_registry_row {α : Type} (s : Sheet α) (d : Device α) : Sheet α :=
  let empty_row := s.maxRow + 1
  ((s.set empty_row 2 (Value.str d.name)).set empty_row 3 (Value.num d.id)).set
    empty_row 4 (Value.num d.coefficient)

/-- Mirrors `UsageGenerator._fill_registry_data`: appends each registry row's
data (name, ID, coefficient) below the current maximum row, in registry order. -/
def fill_registry_data {α : Type} (s : Sheet α) (devices : List (Device α)) : Sheet α :=
  devices.foldl fill_registry_row s

/-- Terminal and intermediate states of the per-device carry-forward state
machine described by the specification for valve-setting updates. -/
inductive VState where
  | review
  | enter
  | confirm
  | keep
  | applied
  deriving DecidableEq

/-- One cycle of answers a user can give while one device's valve setting is
processed: the answer to the change? question, the newly typed setting, and
the answer to the confirmation question. -/
structure Round where
  want_change : Bool
  entry : String
  confirmed : Bool
  deriving DecidableEq

/-- Mirrors `UsageGenerator._confirm_valve_update`: when the user agrees, the
new valve setting is written at (new_row, column 8) and True is returned;
otherwise the sheet is unchanged and False is returned. -/
def confirm_valve_update {α : Type} (s : Sheet α) (_current new_valve : String)
    (new_row : Nat) (agree : Bool) : Sheet α × Bool :=
  if agree then (s.set new_row 8 (Value.str new_valve), true) else (s, false)

/-- Mirrors `UsageGenerator._keep_existing_valve_setting`: writes the previous
block's valve setting, unchanged, at (new_row, column 8). -/
def keep_existing_valve_setting {α : Type} (s : Sheet α) (new_row : Nat)
    (current : String) : Sheet α :=
  s.set new_row 8 (Value.str current)

/-- Mirrors the `while True` loop of
`UsageGenerator._process_valve_setting_update` for one device, driven by the
user's scripted answers. Each iteration asks the change? question again: a
decline keeps the existing value (KEEP), an accepted entry that is then
confirmed applies the new value (APPLIED), and a rejected confirmation loops
back to the change? question with the next answer cycle. Returns `none` when
the script runs out (the source would keep prompting). -/
def process_valve_setting_update {α : Type} (current : String) (new_row : Nat) :
    Sheet α → List Round → Option (Sheet α × VState)
  | _, [] => none
  | s, rd :: rest =>
    if rd.want_change then
      let res := confirm_valve_update s current rd.entry new_row rd.confirmed
      if res.2 then some (res.1, VState.applied)
      else process_valve_setting_update current new_row s rest
    else some (keep_existing_valve_setting s new_row current, VState.keep)

/-- Mirrors the valve-setting read of `UsageGenerator._get_valve_info`: the
previous run's valve setting at (old_row, column 8); `none` when the cell is
missing or non-string (the radiator name, read there only for prompting, is
not modelled). -/
def get_valve_info {α : Type} (s : Sheet α) (old_row : Nat) : Option String :=
  match s.get old_row 8 with
  | some (Value.str current) => some current
  | _ => none

/-- Mirrors the loop of `UsageGenerator._update_valve_setting` from device
ordinal i for k devices: reads device i's previous valve setting at row
`last + i`, runs the per-device update writing at row `start + i`, and
records each device's terminal state. `none` when a previous value is missing
or non-string, or a per-device script runs out. -/
def update_valve_setting_loop {α : Type} (start last : Nat) (scripts : Nat → List Round) :
    Sheet α → Nat → Nat → Option (Sheet α × List VState)
  | s, _, 0 => some (s, [])
  | s, i, k + 1 =>
    (get_valve_info s (last + i)).bind fun current =>
      (process_valve_setting_update current (start + i) s (scripts i)).bind fun t =>
        (update_valve_setting_loop start last scripts t.1 (i + 1) k).map fun t' =>
          (t'.1, t.2 :: t'.2)

/-- Mirrors `UsageGenerator._update_valve_setting`: processes all n devices in
ordinal order, device i reading row `last + i` and writing row `start + i`. -/
def update_valve_setting {α : Type} (s : Sheet α) (start last n : Nat)
    (scripts : Nat → List Round) : Option (Sheet α × List VState) :=
  update_valve_setting_loop start last scripts s 0 n

/-- Mirrors `UsageGenerator._enter_initial_valve_settings` (first run): each
pass fills column 8 of the n device rows with the user's typed settings, then
the recap gate either accepts (last pass) or repeats the entry. `none` when
the pass list is empty (the source always runs at least one pass). -/
def enter_initial_valve_settings {α : Type} (start n : Nat) :
    Sheet α → List (Nat → String) → Option (Sheet α)
  | _, [] => none
  | s, p :: rest =>
    match fill_col (fun _ r => some (Value.str (p r))) 8 s start n with
    | some s' =>
      match rest with
      | [] => some s'
      | _ :: _ => enter_initial_valve_settings start n s' rest
    | none => none

/-- Mirrors `UsageGenerator._manage_valve_settings`: first run (usage file
absent) prompts initial settings, otherwise runs the carry-forward update.
The comment attached to the header cell on the first run carries no cell
value and is not modelled. -/
def manage_valve_settings {α : Type} (file_exists : Bool) (s : Sheet α)
    (start last n : Nat) (init_passes : List (Nat → String))
    (scripts : Nat → List Round) : Option (Sheet α) :=
  if file_exists then (update_valve_setting s start last n scripts).map (fun t => t.1)
  else enter_initial_valve_settings start n s init_passes

/-- Mirrors `UsageGenerator._get_raw_readings`: each pass fills column 5 of
the n device rows with the user's numeric readings, then the recap gate
either accepts (last pass) or repeats the entry. -/
def get_raw_readings {α : Type} (start n : Nat) :
    Sheet α → List (Nat → α) → Option (Sheet α)
  | _, [] => none
  | s, p :: rest =>
    match fill_col (fun _ r => some (Value.num (p r))) 5 s start n with
    | some s' =>
      match rest with
      | [] => some s'
      | _ :: _ => get_raw_readings start n s' rest
    | none => none

/-- Scripted user interaction for one run: the formatted date, the first-run
valve entry passes (each pass giving a value per row, last pass accepted at
the recap gate), the per-device carry-forward answer cycles, the raw-reading
passes, and the optional session note (`none` when the yes/no gate is
declined). -/
structure RunScript (α : Type) where
  date : String
  valve_init_passes : List (Nat → String)
  valve_scripts : Nat → List Round
  raw_passes : List (Nat → α)
  user_note : Option String

/-- Mirrors `UsageGenerator._populate_usage` for one run: updates the start
rows, appends the registry data, fills the dates, manages the valve settings
(initial entry on the first run, carry-forward update otherwise), collects the
raw readings, computes the actual values and the total, finalizes the notes
region and appends the three blank separator rows. Returns the final sheet,
the updated config and the config-update flag; `none` when a required cell is
missing or an interaction script runs out. -/
def populate_usage {α : Type} [Mul α] [Add α] [Zero α] (file_exists : Bool)
    (devices : List (Device α)) (rs : RunScript α) (s : Sheet α) (cfg : Config)
    (upd : Bool) : Option (Sheet α × Config × Bool) :=
  let cfg_upd := update_start_rows s cfg upd
  let n := cfg_upd.1.radiators_owned
  let start := cfg_upd.1.start_row.getD 1
  let last := cfg_upd.1.last_start_row.getD 1
  let s1 := fill_registry_data s devices
  (fill_dates s1 rs.date start n).bind fun s2 =>
    (manage_valve_settings file_exists s2 start last n rs.valve_init_passes
        rs.valve_scripts).bind fun s3 =>
      (get_raw_readings start n s3 rs.raw_passes).bind fun s4 =>
        (get_actual_values s4 start n).bind fun s5 =>
          (get_total s5 start n).map fun s6 =>
            (add_blank_lines (get_notes s6 start n rs.user_note) 3, cfg_upd.1, cfg_upd.2)

/-- ENTER/CONFIRM phase of the per-device state machine exactly as the
specification words it (section 4.3): collect a value, show old vs new,
apply on confirmation, and on rejection transition back to ENTER, collecting
the next value directly. Defined from the specification's words, to be
compared with `process_valve_setting_update`, which is defined from the
source. -/
def spec_enter_confirm {α : Type} (new_row : Nat) : Sheet α → List Round → Option (Sheet α × VState)
  | _, [] => none
  | s, rd :: rest =>
    if rd.confirmed then some (s.set new_row 8 (Value.str rd.entry), VState.applied)
    else spec_enter_confirm new_row s rest

/-- Per-device state machine exactly as the specification words it: REVIEW
asks the change? question once; a yes goes to ENTER and from then on the
machine alternates ENTER and CONFIRM only, never returning to REVIEW.
Defined from the specification's words, to be compared with
`process_valve_setting_update`, which is defined from the source. -/
def spec_process_valve_setting_update {α : Type} (current : String) (new_row : Nat)
    (s : Sheet α) : List Round → Option (Sheet α × VState)
  | [] => none
  | rd :: rest =>
    if rd.want_change then spec_enter_confirm new_row s (rd :: rest)
    else some (s.set new_row 8 (Value.str current), VState.keep)

/-- The usage sheet's fixed header row, as appended on the first run from
`UsageExcelMeta.HEADERS`. -/
def header_sheet : Sheet ℤ :=
  { cells := [((1, 1), Value.str "Date"), ((1, 2), Value.str "Radiator Name"),
      ((1, 3), Value.str "Radiator ID"), ((1, 4), Value.str "Coefficient"),
      ((1, 5), Value.str "Raw Reading"), ((1, 6), Value.str "Actual Value"),
      ((1, 7), Value.str "Total"), ((1, 8), Value.str "Valve Setting"),
      ((1, 9), Value.str "Notes")],
    merges := [] }

/-- The three sample devices of the specification's documented scenario. -/
def demo_devices : List (Device ℤ) :=
  [⟨"Kitchen", 0, 1⟩, ⟨"Living Room", 1, 2⟩, ⟨"Gym", 2, 3⟩]

/-- Config before the first-ever run: three radiators, no recorded rows. -/
def demo_config_zero : Config := ⟨3, none, none⟩

/-- Scripted user interaction for the demo first run: automatic date, one
accepted valve-entry pass, raw readings 10, 7, 15 for rows 2, 3, 4, and the
note gate declined. -/
def demo_script_one : RunScript ℤ :=
  { date := "01/10/2025"
    valve_init_passes := [fun r => if r = 2 then "3" else if r = 3 then "2" else "1"]
    valve_scripts := fun _ => []
    raw_passes := [fun r => if r = 2 then 10 else if r = 3 then 7 else 15]
    user_note := none }

/-- Sheet resulting from the demo first run (the block at rows 2-5 plus three
blank separator rows at rows 6-8). -/
def demo_sheet_one : Sheet ℤ :=
  ((populate_usage false demo_devices demo_script_one header_sheet demo_config_zero
      false).getD (⟨[], []⟩, demo_config_zero, false)).1

/-- Config recorded by the demo first run. -/
def demo_config_one : Config :=
  ((populate_usage false demo_devices demo_script_one header_sheet demo_config_zero
      false).getD (⟨[], []⟩, demo_config_zero, false)).2.1

/-- A sheet with no cells and no merges. -/
def empty_sheet : Sheet ℤ := ⟨[], []⟩

/-- Device rows of the specification's sample block before the actual values
are computed: coefficients 1, 2, 3 and raw readings 10, 7, 15 at rows 2-4. -/
def c1_sheet : Sheet ℤ :=
  ⟨[((2, 4), Value.num 1), ((2, 5), Value.num 10), ((3, 4), Value.num 2),
    ((3, 5), Value.num 7), ((4, 4), Value.num 3), ((4, 5), Value.num 15)], []⟩

/-- The sample block with its actual values 10, 14, 45 computed. -/
def c1_result : Sheet ℤ := (get_actual_values c1_sheet 2 3).getD ⟨[], []⟩

/-- The sample block's actual values by device ordinal. -/
def c2_values : Nat → ℤ := fun i => if i = 0 then 10 else if i = 1 then 14 else 45

/-- Scripted user interaction for the demo second run: every carry-forward
change declined, one accepted raw-reading pass, note accepted. -/
def demo_script_two : RunScript ℤ :=
  { date := "02/10/2025"
    valve_init_passes := []
    valve_scripts := fun _ => [⟨false, "", false⟩]
    raw_passes := [fun _ => 1]
    user_note := some "ok" }

/-- Run-two pipeline result on top of the demo first run. -/
def demo_run_two : Option (Sheet ℤ × Config × Bool) :=
  populate_usage true demo_devices demo_script_two demo_sheet_one demo_config_one false

/-- Sheet after the demo second run. -/
def demo_sheet_two : Sheet ℤ := (demo_run_two.getD (⟨[], []⟩, demo_config_zero, false)).1

/-- Config recorded by the demo second run. -/
def demo_config_two : Config := (demo_run_two.getD (⟨[], []⟩, demo_config_zero, false)).2.1

/-- A previous block's valve settings at rows 2 and 3 for two devices. -/
def c6_sheet : Sheet ℤ := ⟨[((2, 8), Value.str "3"), ((3, 8), Value.str "1")], []⟩

/-- Both devices decline the carry-forward change. -/
def c6_scripts : Nat → List Round := fun _ => [⟨false, "x", true⟩]

/-- Device 0 declines; device 1 enters 5 and confirms. -/
def c7_scripts : Nat → List Round :=
  fun i => if i = 0 then [⟨false, "", false⟩] else [⟨true, "5", true⟩]

/-- Result of the carry-forward update under `c7_scripts`. -/
def c7_run : Sheet ℤ × List VState :=
  (update_valve_setting c6_sheet 5 2 2 c7_scripts).getD (⟨[], []⟩, [])

/-- Sheet after the `c7_scripts` update. -/
def c7_sheet : Sheet ℤ := c7_run.1

/-- Terminal states after the `c7_scripts` update. -/
def c7_sts : List VState := c7_run.2

/-- Answer script: change yes, enter 5, reject the confirmation, then decline
the repeated change? question. -/
def c8_script : List Round := [⟨true, "5", false⟩, ⟨false, "7", true⟩]

theorem Sheet.get_set_same {α : Type} (s : Sheet α) (r c : Nat) (v : Value α) :
    (s.set r c v).get r c = some v := by
  simp [Sheet.get, Sheet.set, lookupCell]

theorem Sheet.get_set_ne {α : Type} (s : Sheet α) (r c r' c' : Nat) (v : Value α)
    (h : (r', c') ≠ (r, c)) : (s.set r c v).get r' c' = s.get r' c' := by
  have h' : ¬ ((r, c) = (r', c')) := fun hk => h (hk.symm)
  simp [Sheet.get, Sheet.set, lookupCell, h']

theorem Sheet.maxRow_set {α : Type} (s : Sheet α) (r c : Nat) (v : Value α) :
    (s.set r c v).maxRow = max r s.maxRow := by
  simp [Sheet.maxRow, Sheet.set]

theorem Sheet.maxRow_le_set {α : Type} (s : Sheet α) (r c : Nat) (v : Value α) :
    s.maxRow ≤ (s.set r c v).maxRow := by
  rw [Sheet.maxRow_set]; exact le_max_right _ _

theorem Sheet.one_le_maxRow {α : Type} (s : Sheet α) : 1 ≤ s.maxRow := by
  unfold Sheet.maxRow
  induction s.cells with
  | nil => exact le_refl 1
  | cons e rest ih => exact le_trans ih (le_max_right _ _)

/-- Frame lemma: a write strictly above a bound R leaves every row at or
below R unchanged. -/
theorem Sheet.get_set_of_le {α : Type} (s : Sheet α) (R r c r' c' : Nat) (v : Value α)
    (hr : r' ≤ R) (hw : R < r) : (s.set r c v).get r' c' = s.get r' c' := by
  apply Sheet.get_set_ne
  intro h
  rw [Prod.mk.injEq] at h
  omega

theorem fill_col_frame {α : Type} (f : Sheet α → Nat → Option (Value α)) (col : Nat) :
    ∀ (k : Nat) (s s' : Sheet α) (row : Nat), fill_col f col s row k = some s' →
      ∀ r c, (r < row ∨ row + k ≤ r ∨ c ≠ col) → s'.get r c = s.get r c := by
  intro k
  induction k with
  | zero =>
    intro s s' row h r c _
    simp [fill_col] at h
    rw [h]
  | succ k ih =>
    intro s s' row h r c hrc
    rw [fill_col] at h
    cases hv : f s row with
    | none => rw [hv] at h; exact absurd h (by simp)
    | some v =>
      rw [hv] at h
      have step := ih (s.set row col v) s' (row + 1) h r c
        (by rcases hrc with h1 | h2 | h3
            · exact Or.inl (by omega)
            · exact Or.inr (Or.inl (by omega))
            · exact Or.inr (Or.inr h3))
      rw [step]
      apply Sheet.get_set_ne
      intro hk
      rw [Prod.mk.injEq] at hk
      rcases hrc with h1 | h2 | h3
      · omega
      · omega
      · exact h3 hk.2

theorem fill_col_maxRow_le {α : Type} (f : Sheet α → Nat → Option (Value α)) (col : Nat) :
    ∀ (k : Nat) (s s' : Sheet α) (row : Nat), fill_col f col s row k = some s' →
      s.maxRow ≤ s'.maxRow := by
  intro k
  induction k with
  | zero =>
    intro s s' row h
    simp [fill_col] at h
    rw [h]
  | succ k ih =>
    intro s s' row h
    rw [fill_col] at h
    cases hv : f s row with
    | none => rw [hv] at h; exact absurd h (by simp)
    | some v =>
      rw [hv] at h
      exact le_trans (Sheet.maxRow_le_set s row col v) (ih _ _ _ h)

/-- Filling with a getter that never fails (pure user input or a constant)
always succeeds and writes exactly the getter's value at each covered row. -/
theorem fill_col_pure {α : Type} (g : Nat → Value α) (col : Nat) :
    ∀ (k : Nat) (s : Sheet α) (row : Nat),
      ∃ s', fill_col (fun _ r => some (g r)) col s row k = some s' ∧
        (∀ i, i < k → s'.get (row + i) col = some (g (row + i))) := by
  intro k
  induction k with
  | zero =>
    intro s row
    exact ⟨s, by simp [fill_col]⟩
  | succ k ih =>
    intro s row
    obtain ⟨s', hs', hvals⟩ := ih (s.set row col (g row)) (row + 1)
    refine ⟨s', by rw [fill_col]; exact hs', ?_⟩
    intro i hi
    cases i with
    | zero =>
      have hframe := fill_col_frame (fun _ r => some (g r)) col k _ _ _ hs'
        (row + 0) col (Or.inl (by omega))
      rw [hframe]
      simpa using Sheet.get_set_same s row col (g row)
    | succ j =>
      have := hvals j (by omega)
      have harith : row + 1 + j = row + (j + 1) := by omega
      rw [harith] at this
      exact this

theorem add_blank_lines_maxRow {α : Type} :
    ∀ (k : Nat) (s : Sheet α), (add_blank_lines s k).maxRow = s.maxRow + k := by
  intro k
  induction k with
  | zero => intro s; simp [add_blank_lines]
  | succ k ih =>
    intro s
    rw [add_blank_lines, ih]
    rw [Sheet.maxRow_set]
    omega

theorem add_blank_lines_frame {α : Type} :
    ∀ (k : Nat) (s : Sheet α) (R : Nat), R ≤ s.maxRow →
      ∀ r c, r ≤ R → (add_blank_lines s k).get r c = s.get r c := by
  intro k
  induction k with
  | zero => intro s R _ r c _; simp [add_blank_lines]
  | succ k ih =>
    intro s R hR r c hr
    rw [add_blank_lines]
    have hmax : R ≤ (s.set (s.maxRow + 1) 1 (Value.str "")).maxRow :=
      le_trans hR (Sheet.maxRow_le_set _ _ _ _)
    rw [ih _ R hmax r c hr]
    exact Sheet.get_set_of_le s R _ 1 r c _ hr (by omega)

theorem fill_registry_row_maxRow {α : Type} (s : Sheet α) (d : Device α) :
    (fill_registry_row s d).maxRow = s.maxRow + 1 := by
  simp [fill_registry_row, Sheet.maxRow_set]

theorem fill_registry_row_frame {α : Type} (s : Sheet α) (d : Device α) (R : Nat)
    (hR : R ≤ s.maxRow) : ∀ r c, r ≤ R → (fill_registry_row s d).get r c = s.get r c := by
  intro r c hr
  unfold fill_registry_row
  rw [Sheet.get_set_of_le _ R _ _ _ _ _ hr (by omega)]
  rw [Sheet.get_set_of_le _ R _ _ _ _ _ hr (by omega)]
  exact Sheet.get_set_of_le _ R _ _ _ _ _ hr (by omega)

theorem fill_registry_data_maxRow {α : Type} :
    ∀ (devices : List (Device α)) (s : Sheet α),
      (fill_registry_data s devices).maxRow = s.maxRow + devices.length := by
  intro devices
  induction devices with
  | nil => intro s; simp [fill_registry_data]
  | cons d rest ih =>
    intro s
    show (fill_registry_data (fill_registry_row s d) rest).maxRow = _
    rw [ih, fill_registry_row_maxRow]
    simp
    omega

theorem fill_registry_data_frame {α : Type} :
    ∀ (devices : List (Device α)) (s : Sheet α) (R : Nat), R ≤ s.maxRow →
      ∀ r c, r ≤ R → (fill_registry_data s devices).get r c = s.get r c := by
  intro devices
  induction devices with
  | nil => intro s R _ r c _; simp [fill_registry_data]
  | cons d rest ih =>
    intro s R hR r c hr
    show (fill_registry_data (fill_registry_row s d) rest).get r c = _
    rw [ih _ R (by rw [fill_registry_row_maxRow]; omega) r c hr]
    exact fill_registry_row_frame s d R hR r c hr

theorem process_frame {α : Type} (current : String) (new_row : Nat) :
    ∀ (rounds : List Round) (s s' : Sheet α) (st : VState),
      process_valve_setting_update current new_row s rounds = some (s', st) →
      ∀ r c, (r, c) ≠ (new_row, 8) → s'.get r c = s.get r c := by
  intro rounds
  induction rounds with
  | nil => intro s s' st h; simp [process_valve_setting_update] at h
  | cons rd rest ih =>
    intro s s' st h r c hrc
    rw [process_valve_setting_update] at h
    by_cases hw : rd.want_change
    · rw [if_pos hw] at h
      by_cases hc : rd.confirmed
      · simp [confirm_valve_update, hc] at h
        rw [← h.1]
        exact Sheet.get_set_ne s new_row 8 r c _ hrc
      · simp [confirm_valve_update, hc] at h
        exact ih s s' st h r c hrc
    · rw [if_neg hw] at h
      simp [keep_existing_valve_setting] at h
      rw [← h.1]
      exact Sheet.get_set_ne s new_row 8 r c _ hrc

theorem process_maxRow_le {α : Type} (current : String) (new_row : Nat) :
    ∀ (rounds : List Round) (s s' : Sheet α) (st : VState),
      process_valve_setting_update current new_row s rounds = some (s', st) →
      s.maxRow ≤ s'.maxRow := by
  intro rounds
  induction rounds with
  | nil => intro s s' st h; simp [process_valve_setting_update] at h
  | cons rd rest ih =>
    intro s s' st h
    rw [process_valve_setting_update] at h
    by_cases hw : rd.want_change
    · rw [if_pos hw] at h
      by_cases hc : rd.confirmed
      · simp [confirm_valve_update, hc] at h
        rw [← h.1]
        exact Sheet.maxRow_le_set s new_row 8 _
      · simp [confirm_valve_update, hc] at h
        exact ih s s' st h
    · rw [if_neg hw] at h
      simp [keep_existing_valve_setting] at h
      rw [← h.1]
      exact Sheet.maxRow_le_set s new_row 8 _

/-- The per-device loop can only finish in KEEP or APPLIED, the processed row
always ends with a valve-setting value, that value came either verbatim from
the current (carried) setting or from one of the user's typed entries, and
KEEP means the carried value. -/
theorem process_spec {α : Type} (current : String) (new_row : Nat) :
    ∀ (rounds : List Round) (s s' : Sheet α) (st : VState),
      process_valve_setting_update current new_row s rounds = some (s', st) →
      (st = VState.keep ∨ st = VState.applied) ∧
      ∃ v, s'.get new_row 8 = some (Value.str v) ∧
        (v = current ∨ ∃ rd ∈ rounds, rd.entry = v) ∧
        (st = VState.keep → v = current) := by
  intro rounds
  induction rounds with
  | nil => intro s s' st h; simp [process_valve_setting_update] at h
  | cons rd rest ih =>
    intro s s' st h
    rw [process_valve_setting_update] at h
    by_cases hw : rd.want_change
    · rw [if_pos hw] at h
      by_cases hc : rd.confirmed
      · simp [confirm_valve_update, hc] at h
        refine ⟨Or.inr h.2.symm, rd.entry, ?_, ?_, ?_⟩
        · rw [← h.1]; exact Sheet.get_set_same s new_row 8 _
        · exact Or.inr ⟨rd, by simp⟩
        · intro hk; rw [← h.2] at hk; exact absurd hk (by simp)
      · simp [confirm_valve_update, hc] at h
        obtain ⟨hst, v, hv, hsrc, hkeep⟩ := ih s s' st h
        refine ⟨hst, v, hv, ?_, hkeep⟩
        rcases hsrc with h1 | ⟨rd', hrd', he⟩
        · exact Or.inl h1
        · exact Or.inr ⟨rd', List.mem_cons_of_mem rd hrd', he⟩
    · rw [if_neg hw] at h
      simp [keep_existing_valve_setting] at h
      refine ⟨Or.inl h.2.symm, current, ?_, Or.inl rfl, fun _ => rfl⟩
      rw [← h.1]
      exact Sheet.get_set_same s new_row 8 _

theorem update_loop_frame {α : Type} (start last : Nat) (scripts : Nat → List Round) :
    ∀ (k : Nat) (s s' : Sheet α) (i : Nat) (sts : List VState),
      update_valve_setting_loop start last scripts s i k = some (s', sts) →
      ∀ r c, r < start + i → s'.get r c = s.get r c := by
  intro k
  induction k with
  | zero =>
    intro s s' i sts h r c _
    simp [update_valve_setting_loop] at h
    rw [h.1]
  | succ k ih =>
    intro s s' i sts h r c hr
    rw [update_valve_setting_loop] at h
    cases hread : get_valve_info s (last + i) with
    | none => rw [hread] at h; exact absurd h (by simp)
    | some current =>
      rw [hread] at h
      simp only [Option.some_bind] at h
      cases hp : process_valve_setting_update current (start + i) s (scripts i) with
      | none => rw [hp] at h; exact absurd h (by simp)
      | some t =>
        rw [hp] at h
        simp only [Option.some_bind] at h
        cases hl : update_valve_setting_loop start last scripts t.1 (i + 1) k with
        | none => rw [hl] at h; exact absurd h (by simp)
        | some t' =>
          rw [hl] at h
          simp at h
          have h1 := ih t.1 t'.1 (i + 1) t'.2 (by rw [hl]) r c (by omega)
          have h2 := process_frame current (start + i) (scripts i) s t.1 t.2
            (by rw [hp]) r c (by intro hk; rw [Prod.mk.injEq] at hk; omega)
          rw [← h.1, h1, h2]

theorem update_loop_maxRow_le {α : Type} (start last : Nat) (scripts : Nat → List Round) :
    ∀ (k : Nat) (s s' : Sheet α) (i : Nat) (sts : List VState),
      update_valve_setting_loop start last scripts s i k = some (s', sts) →
      s.maxRow ≤ s'.maxRow := by
  intro k
  induction k with
  | zero =>
    intro s s' i sts h
    simp [update_valve_setting_loop] at h
    rw [h.1]
  | succ k ih =>
    intro s s' i sts h
    rw [update_valve_setting_loop] at h
    cases hread : get_valve_info s (last + i) with
    | none => rw [hread] at h; exact absurd h (by simp)
    | some current =>
      rw [hread] at h
      simp only [Option.some_bind] at h
      cases hp : process_valve_setting_update current (start + i) s (scripts i) with
      | none => rw [hp] at h; exact absurd h (by simp)
      | some t =>
        rw [hp] at h
        simp only [Option.some_bind] at h
        cases hl : update_valve_setting_loop start last scripts t.1 (i + 1) k with
        | none => rw [hl] at h; exact absurd h (by simp)
        | some t' =>
          rw [hl] at h
          simp at h
          have h1 := process_maxRow_le current (start + i) (scripts i) s t.1 t.2 (by rw [hp])
          have h2 := ih t.1 t'.1 (i + 1) t'.2 (by rw [hl])
          rw [← h.1]
          exact le_trans h1 h2

theorem get_valve_info_eq {α : Type} (s : Sheet α) (r : Nat) (v : String) :
    get_valve_info s r = some v ↔ s.get r 8 = some (Value.str v) := by
  unfold get_valve_info
  cases h : s.get r 8 with
  | none => simp
  | some val => cases val with
    | num x => simp
    | str w => simp

/-- When the carry-forward loop over devices i..i+k-1 returns, it has produced
one terminal state per device, each either KEEP or APPLIED, and each processed
row holds a valve-setting value that is either the previous block's value,
verbatim, or one of the entries the user typed for that device (the ranges
being disjoint, reads of the old rows are unaffected by the new writes). -/
theorem update_loop_values {α : Type} (start last : Nat) (scripts : Nat → List Round) :
    ∀ (k : Nat) (s s' : Sheet α) (i : Nat) (sts : List VState),
      (∀ j, j < k → last + (i + j) < start) →
      update_valve_setting_loop start last scripts s i k = some (s', sts) →
      sts.length = k ∧
      (∀ st ∈ sts, st = VState.keep ∨ st = VState.applied) ∧
      (∀ j, j < k → ∃ v, s'.get (start + (i + j)) 8 = some (Value.str v) ∧
        (s.get (last + (i + j)) 8 = some (Value.str v) ∨
          ∃ rd ∈ scripts (i + j), rd.entry = v)) := by
  intro k
  induction k with
  | zero =>
    intro s s' i sts _ h
    simp [update_valve_setting_loop] at h
    obtain ⟨h1, h2⟩ := h
    subst h2
    refine ⟨rfl, ?_, ?_⟩
    · intro st hst; simp at hst
    · intro j hj; omega
  | succ k ih =>
    intro s s' i sts hgeom h
    rw [update_valve_setting_loop] at h
    cases hread : get_valve_info s (last + i) with
    | none => rw [hread] at h; exact absurd h (by simp)
    | some current =>
      rw [hread] at h
      simp only [Option.some_bind] at h
      cases hp : process_valve_setting_update current (start + i) s (scripts i) with
      | none => rw [hp] at h; exact absurd h (by simp)
      | some t =>
        rw [hp] at h
        simp only [Option.some_bind] at h
        cases hl : update_valve_setting_loop start last scripts t.1 (i + 1) k with
        | none => rw [hl] at h; exact absurd h (by simp)
        | some t' =>
          rw [hl] at h
          simp at h
          obtain ⟨hts, v0, hv0, hsrc0, _⟩ := process_spec current (start + i) (scripts i) s t.1 t.2
            (by rw [hp])
          obtain ⟨hlen, hsts, hvals⟩ := ih t.1 t'.1 (i + 1) t'.2
            (fun j hj => by have := hgeom (j + 1) (by omega); omega) (by rw [hl])
          have hframe := update_loop_frame start last scripts k t.1 t'.1 (i + 1) t'.2
            (by rw [hl])
          refine ⟨?_, ?_, ?_⟩
          · rw [← h.2]; simp [hlen]
          · intro st hst
            rw [← h.2] at hst
            rcases List.mem_cons.mp hst with h1 | h2
            · rw [h1]; exact hts
            · exact hsts st h2
          · intro j hj
            cases j with
            | zero =>
              refine ⟨v0, ?_, ?_⟩
              · rw [← h.1]
                rw [hframe (start + (i + 0)) 8 (by omega)]
                simpa using hv0
              · rcases hsrc0 with h1 | h2
                · left
                  subst h1
                  simpa using (get_valve_info_eq s (last + i) v0).mp hread
                · right
                  simpa using h2
            | succ j =>
              obtain ⟨v, hv, hsrc⟩ := hvals j (by omega)
              refine ⟨v, ?_, ?_⟩
              · rw [← h.1]
                have harith : i + 1 + j = i + (j + 1) := by omega
                rw [harith] at hv
                exact hv
              · have harith : i + 1 + j = i + (j + 1) := by omega
                rw [harith] at hsrc
                rcases hsrc with h1 | h2
                · left
                  rw [← h1]
                  symm
                  apply process_frame current (start + i) (scripts i) s t.1 t.2 (by rw [hp])
                  intro hk
                  rw [Prod.mk.injEq] at hk
                  have := hgeom (j + 1) (by omega)
                  omega
                · exact Or.inr h2

/-- When the user declines the change for every remaining device, the
carry-forward loop succeeds and copies the previous block's valve setting
verbatim to each device's new row. -/
theorem update_loop_keep {α : Type} (start last : Nat) (scripts : Nat → List Round)
    (s0 : Sheet α) :
    ∀ (k : Nat) (s : Sheet α) (i : Nat),
      (∀ r c, r < start → s.get r c = s0.get r c) →
      (∀ j, j < k → last + (i + j) < start) →
      (∀ j, j < k → ∃ v, s0.get (last + (i + j)) 8 = some (Value.str v)) →
      (∀ j, j < k → ∃ rd rest, scripts (i + j) = rd :: rest ∧ rd.want_change = false) →
      ∃ s' sts, update_valve_setting_loop start last scripts s i k = some (s', sts) ∧
        (∀ r c, r < start → s'.get r c = s0.get r c) ∧
        (∀ j, j < k → s'.get (start + (i + j)) 8 = s0.get (last + (i + j)) 8) := by
  intro k
  induction k with
  | zero =>
    intro s i hagree _ _ _
    exact ⟨s, [], by simp [update_valve_setting_loop], hagree, fun j hj => absurd hj (by omega)⟩
  | succ k ih =>
    intro s i hagree hgeom hold hdecl
    obtain ⟨v, hv⟩ := hold 0 (by omega)
    simp at hv
    obtain ⟨rd, rest, hscr, hwant⟩ := hdecl 0 (by omega)
    simp at hscr
    have hglt : last + i < start := by have := hgeom 0 (by omega); omega
    have hread : get_valve_info s (last + i) = some v := by
      rw [get_valve_info_eq, hagree (last + i) 8 hglt]
      exact hv
    have hproc : process_valve_setting_update v (start + i) s (scripts i) =
        some (s.set (start + i) 8 (Value.str v), VState.keep) := by
      rw [hscr, process_valve_setting_update, if_neg (by simp [hwant])]
      rfl
    set s1 := s.set (start + i) 8 (Value.str v) with hs1
    have hagree1 : ∀ r c, r < start → s1.get r c = s0.get r c := by
      intro r c hr
      rw [hs1, Sheet.get_set_ne _ _ _ _ _ _ (by intro hk; rw [Prod.mk.injEq] at hk; omega)]
      exact hagree r c hr
    obtain ⟨s', sts, hloop, hagree', hvals⟩ := ih s1 (i + 1) hagree1
      (fun j hj => by have := hgeom (j + 1) (by omega); omega)
      (fun j hj => by
        have harith : i + 1 + j = i + (j + 1) := by omega
        rw [harith]
        exact hold (j + 1) (by omega))
      (fun j hj => by
        have harith : i + 1 + j = i + (j + 1) := by omega
        rw [harith]
        exact hdecl (j + 1) (by omega))
    refine ⟨s', VState.keep :: sts, ?_, hagree', ?_⟩
    · rw [update_valve_setting_loop, hread]
      simp only [Option.some_bind]
      rw [hproc]
      simp only [Option.some_bind]
      rw [hloop]
      rfl
    · intro j hj
      cases j with
      | zero =>
        have hframe := update_loop_frame start last scripts k s1 s' (i + 1) sts hloop
        rw [hframe (start + (i + 0)) 8 (by omega)]
        rw [hs1]
        simp [Sheet.get_set_same, hv]
      | succ j =>
        have harith : i + 1 + j = i + (j + 1) := by omega
        have := hvals j (by omega)
        rw [harith] at this
        exact this

theorem get_raw_readings_frame {α : Type} (start n : Nat) :
    ∀ (passes : List (Nat → α)) (s s' : Sheet α), get_raw_readings start n s passes = some s' →
      ∀ r c, (r < start ∨ start + n ≤ r ∨ c ≠ 5) → s'.get r c = s.get r c := by
  intro passes
  induction passes with
  | nil => intro s s' h; simp [get_raw_readings] at h
  | cons p rest ih =>
    intro s s' h r c hrc
    rw [get_raw_readings] at h
    cases hf : fill_col (fun _ r => some (Value.num (p r))) 5 s start n with
    | none => rw [hf] at h; exact absurd h (by simp)
    | some s1 =>
      rw [hf] at h
      have hstep := fill_col_frame _ 5 n s s1 start hf r c hrc
      cases rest with
      | nil => simp at h; rw [← h]; exact hstep
      | cons q qs => rw [ih s1 s' h r c hrc]; exact hstep

theorem get_raw_readings_maxRow_le {α : Type} (start n : Nat) :
    ∀ (passes : List (Nat → α)) (s s' : Sheet α), get_raw_readings start n s passes = some s' →
      s.maxRow ≤ s'.maxRow := by
  intro passes
  induction passes with
  | nil => intro s s' h; simp [get_raw_readings] at h
  | cons p rest ih =>
    intro s s' h
    rw [get_raw_readings] at h
    cases hf : fill_col (fun _ r => some (Value.num (p r))) 5 s start n with
    | none => rw [hf] at h; exact absurd h (by simp)
    | some s1 =>
      rw [hf] at h
      have hstep := fill_col_maxRow_le _ 5 n s s1 start hf
      cases rest with
      | nil => simp at h; rw [← h]; exact hstep
      | cons q qs => exact le_trans hstep (ih s1 s' h)

theorem enter_initial_frame {α : Type} (start n : Nat) :
    ∀ (passes : List (Nat → String)) (s s' : Sheet α),
      enter_initial_valve_settings start n s passes = some s' →
      ∀ r c, (r < start ∨ start + n ≤ r ∨ c ≠ 8) → s'.get r c = s.get r c := by
  intro passes
  induction passes with
  | nil => intro s s' h; simp [enter_initial_valve_settings] at h
  | cons p rest ih =>
    intro s s' h r c hrc
    rw [enter_initial_valve_settings] at h
    cases hf : fill_col (fun _ r => some (Value.str (p r))) 8 s start n with
    | none => rw [hf] at h; exact absurd h (by simp)
    | some s1 =>
      rw [hf] at h
      have hstep := fill_col_frame _ 8 n s s1 start hf r c hrc
      cases rest with
      | nil => simp at h; rw [← h]; exact hstep
      | cons q qs => rw [ih s1 s' h r c hrc]; exact hstep

theorem enter_initial_maxRow_le {α : Type} (start n : Nat) :
    ∀ (passes : List (Nat → String)) (s s' : Sheet α),
      enter_initial_valve_settings start n s passes = some s' →
      s.maxRow ≤ s'.maxRow := by
  intro passes
  induction passes with
  | nil => intro s s' h; simp [enter_initial_valve_settings] at h
  | cons p rest ih =>
    intro s s' h
    rw [enter_initial_valve_settings] at h
    cases hf : fill_col (fun _ r => some (Value.str (p r))) 8 s start n with
    | none => rw [hf] at h; exact absurd h (by simp)
    | some s1 =>
      rw [hf] at h
      have hstep := fill_col_maxRow_le _ 8 n s s1 start hf
      cases rest with
      | nil => simp at h; rw [← h]; exact hstep
      | cons q qs => exact le_trans hstep (ih s1 s' h)

theorem manage_valve_settings_frame {α : Type} (file_exists : Bool) (start last n : Nat)
    (init_passes : List (Nat → String)) (scripts : Nat → List Round) (s s' : Sheet α)
    (h : manage_valve_settings file_exists s start last n init_passes scripts = some s') :
    ∀ r c, r < start → s'.get r c = s.get r c := by
  intro r c hr
  unfold manage_valve_settings at h
  cases file_exists with
  | true =>
    rw [if_pos rfl] at h
    cases hu : update_valve_setting s start last n scripts with
    | none => rw [hu] at h; exact absurd h (by simp)
    | some t =>
      rw [hu] at h
      simp at h
      rw [← h]
      exact update_loop_frame start last scripts n s t.1 0 t.2 hu r c (by omega)
  | false =>
    rw [if_neg (by simp)] at h
    exact enter_initial_frame start n init_passes s s' h r c (Or.inl hr)

theorem manage_valve_settings_maxRow_le {α : Type} (file_exists : Bool) (start last n : Nat)
    (init_passes : List (Nat → String)) (scripts : Nat → List Round) (s s' : Sheet α)
    (h : manage_valve_settings file_exists s start last n init_passes scripts = some s') :
    s.maxRow ≤ s'.maxRow := by
  unfold manage_valve_settings at h
  cases file_exists with
  | true =>
    rw [if_pos rfl] at h
    cases hu : update_valve_setting s start last n scripts with
    | none => rw [hu] at h; exact absurd h (by simp)
    | some t =>
      rw [hu] at h
      simp at h
      rw [← h]
      exact update_loop_maxRow_le start last scripts n s t.1 0 t.2 hu
  | false =>
    rw [if_neg (by simp)] at h
    exact enter_initial_maxRow_le start n init_passes s s' h

theorem compute_actual_value_eq {α : Type} [Mul α] (s : Sheet α) (row : Nat) (v : Value α) :
    compute_actual_value s row = some v ↔
      ∃ coefficient raw_reading, s.get row 4 = some (Value.num coefficient) ∧
        s.get row 5 = some (Value.num raw_reading) ∧
        v = Value.num (coefficient * raw_reading) := by
  unfold compute_actual_value
  cases h4 : s.get row 4 with
  | none => simp
  | some v4 =>
    cases v4 with
    | str w => simp
    | num coefficient =>
      cases h5 : s.get row 5 with
      | none => simp
      | some v5 =>
        cases v5 with
        | str w => simp
        | num raw_reading =>
          constructor
          · intro h
            exact ⟨coefficient, raw_reading, rfl, rfl, by simpa using h.symm⟩
          · rintro ⟨c, r_, hc, hr, hv⟩
            simp at hc hr
            rw [hv, hc, hr]

/-- Each device row processed by `_get_actual_values` ends with column 6 equal
to the product of its coefficient (column 4) and raw reading (column 5), the
factor cells themselves being untouched. -/
theorem get_actual_values_spec {α : Type} [Mul α] :
    ∀ (k : Nat) (s s' : Sheet α) (start : Nat), get_actual_values s start k = some s' →
      ∀ i, i < k → ∃ coefficient raw_reading,
        s'.get (start + i) 4 = some (Value.num coefficient) ∧
        s'.get (start + i) 5 = some (Value.num raw_reading) ∧
        s'.get (start + i) 6 = some (Value.num (coefficient * raw_reading)) := by
  intro k
  induction k with
  | zero => intro s s' start _ i hi; omega
  | succ k ih =>
    intro s s' start h i hi
    rw [get_actual_values, fill_col] at h
    cases hv : compute_actual_value s start with
    | none => rw [hv] at h; exact absurd h (by simp)
    | some v =>
      rw [hv] at h
      obtain ⟨coefficient, raw_reading, h4, h5, hveq⟩ := (compute_actual_value_eq s start v).mp hv
      cases i with
      | zero =>
        have hframe := fill_col_frame compute_actual_value 6 k _ _ _ h
        refine ⟨coefficient, raw_reading, ?_, ?_, ?_⟩
        · rw [hframe (start + 0) 4 (Or.inl (by omega))]
          rw [Sheet.get_set_ne _ _ _ _ _ _ (by simp)]
          simpa using h4
        · rw [hframe (start + 0) 5 (Or.inl (by omega))]
          rw [Sheet.get_set_ne _ _ _ _ _ _ (by simp)]
          simpa using h5
        · rw [hframe (start + 0) 6 (Or.inl (by omega))]
          rw [hveq] at hv ⊢
          simpa using Sheet.get_set_same s start 6 _
      | succ j =>
        have := ih _ _ (start + 1) h j (by omega)
        have harith : start + 1 + j = start + (j + 1) := by omega
        rw [harith] at this
        exact this

theorem sum_actual_values_eq {α : Type} [AddCommMonoid α] (s : Sheet α) (start : Nat)
    (v : Nat → α) :
    ∀ (n : Nat), (∀ i, i < n → s.get (start + i) 6 = some (Value.num (v i))) →
      sum_actual_values s start n (some 0) = some (∑ i ∈ Finset.range n, v i) := by
  intro n
  induction n with
  | zero => intro _; simp [sum_actual_values]
  | succ n ih =>
    intro hv
    rw [sum_actual_values, ih (fun i hi => hv i (by omega)), hv n (by omega),
      Finset.sum_range_succ]

/-- The total is the sum of the block's column-6 values and is written exactly
once, at column 7 of the row immediately after the last device row; every
other cell is untouched. -/
theorem get_total_spec {α : Type} [AddCommMonoid α] (s : Sheet α) (start n : Nat) (v : Nat → α)
    (hv : ∀ i, i < n → s.get (start + i) 6 = some (Value.num (v i))) :
    ∃ s', get_total s start n = some s' ∧
      s'.get (start + n) 7 = some (Value.num (∑ i ∈ Finset.range n, v i)) ∧
      ∀ r c, (r, c) ≠ (start + n, 7) → s'.get r c = s.get r c := by
  refine ⟨s.set (start + n) 7 (Value.num (∑ i ∈ Finset.range n, v i)), ?_, ?_, ?_⟩
  · rw [get_total, sum_actual_values_eq s start v n hv]
  · exact Sheet.get_set_same s (start + n) 7 _
  · intro r c hrc
    exact Sheet.get_set_ne s (start + n) 7 r c _ hrc

theorem get_total_frame {α : Type} [Add α] [Zero α] (s s' : Sheet α) (start n : Nat)
    (h : get_total s start n = some s') :
    ∀ r c, (r, c) ≠ (start + n, 7) → s'.get r c = s.get r c := by
  intro r c hrc
  unfold get_total at h
  cases ht : sum_actual_values s start n (some 0) with
  | none => rw [ht] at h; exact absurd h (by simp)
  | some total_value =>
    rw [ht] at h
    simp at h
    rw [← h]
    exact Sheet.get_set_ne s (start + n) 7 r c _ hrc

theorem get_total_maxRow_le {α : Type} [Add α] [Zero α] (s s' : Sheet α) (start n : Nat)
    (h : get_total s start n = some s') : s.maxRow ≤ s'.maxRow := by
  unfold get_total at h
  cases ht : sum_actual_values s start n (some 0) with
  | none => rw [ht] at h; exact absurd h (by simp)
  | some total_value =>
    rw [ht] at h
    simp at h
    rw [← h]
    exact Sheet.maxRow_le_set s (start + n) 7 _

theorem get_notes_frame {α : Type} (s : Sheet α) (start n : Nat) (user_note : Option String) :
    ∀ r c, (r, c) ≠ (start, 9) →
      (get_notes s start n user_note).get r c = s.get r c := by
  intro r c hrc
  unfold get_notes insert_note merge_valve_cells
  exact Sheet.get_set_ne _ start 9 r c _ hrc

theorem get_notes_maxRow_le {α : Type} (s : Sheet α) (start n : Nat)
    (user_note : Option String) : s.maxRow ≤ (get_notes s start n user_note).maxRow := by
  unfold get_notes insert_note merge_valve_cells
  rw [Sheet.maxRow_set]
  exact le_max_right _ _

/-- Frame property of one whole run: every cell at or below the previous
maximum row (in particular every cell of every prior block) is untouched, and
the new block starts exactly one row past the previous maximum row. -/
theorem populate_usage_frame {α : Type} [Mul α] [Add α] [Zero α] (file_exists : Bool)
    (devices : List (Device α)) (rs : RunScript α) (s : Sheet α) (cfg : Config) (upd : Bool)
    (s' : Sheet α) (cfg' : Config) (upd' : Bool)
    (h : populate_usage file_exists devices rs s cfg upd = some (s', cfg', upd')) :
    (∀ r c, r ≤ s.maxRow → s'.get r c = s.get r c) ∧
      cfg'.start_row = some (s.maxRow + 1) := by
  simp only [populate_usage, update_start_rows, Option.getD_some] at h
  set m := s.maxRow with hm
  set s1 := fill_registry_data s devices with hs1
  set n := cfg.radiators_owned with hn
  cases hd : fill_dates s1 rs.date (m + 1) n with
  | none => rw [hd] at h; exact absurd h (by simp)
  | some s2 =>
    rw [hd] at h
    simp only [Option.some_bind] at h
    cases hv : manage_valve_settings file_exists s2 (m + 1) (cfg.start_row.getD (m + 1)) n
        rs.valve_init_passes rs.valve_scripts with
    | none => rw [hv] at h; exact absurd h (by simp)
    | some s3 =>
      rw [hv] at h
      simp only [Option.some_bind] at h
      cases hr : get_raw_readings (m + 1) n s3 rs.raw_passes with
      | none => rw [hr] at h; exact absurd h (by simp)
      | some s4 =>
        rw [hr] at h
        simp only [Option.some_bind] at h
        cases ha : get_actual_values s4 (m + 1) n with
        | none => rw [ha] at h; exact absurd h (by simp)
        | some s5 =>
          rw [ha] at h
          simp only [Option.some_bind] at h
          cases ht : get_total s5 (m + 1) n with
          | none => rw [ht] at h; exact absurd h (by simp)
          | some s6 =>
            rw [ht] at h
            simp only [Option.map_some'] at h
            rw [Option.some_inj, Prod.mk.injEq, Prod.mk.injEq] at h
            obtain ⟨hsheet, hcfg, _⟩ := h
            constructor
            · intro r c hr'
              have f1 : s1.get r c = s.get r c :=
                fill_registry_data_frame devices s m le_rfl r c hr'
              have f2 : s2.get r c = s1.get r c :=
                fill_col_frame _ 1 (n + 1) s1 s2 (m + 1) hd r c (Or.inl (by omega))
              have f3 : s3.get r c = s2.get r c :=
                manage_valve_settings_frame file_exists (m + 1) _ n _ _ s2 s3 hv r c (by omega)
              have f4 : s4.get r c = s3.get r c :=
                get_raw_readings_frame (m + 1) n rs.raw_passes s3 s4 hr r c (Or.inl (by omega))
              have f5 : s5.get r c = s4.get r c :=
                fill_col_frame _ 6 n s4 s5 (m + 1) ha r c (Or.inl (by omega))
              have f6 : s6.get r c = s5.get r c :=
                get_total_frame s5 s6 (m + 1) n ht r c
                  (by intro hk; rw [Prod.mk.injEq] at hk; omega)
              have f7 : (get_notes s6 (m + 1) n rs.user_note).get r c = s6.get r c :=
                get_notes_frame s6 (m + 1) n rs.user_note r c
                  (by intro hk; rw [Prod.mk.injEq] at hk; omega)
              have g1 : s.maxRow ≤ s1.maxRow := by
                rw [fill_registry_data_maxRow devices s]; omega
              have g2 : s1.maxRow ≤ s2.maxRow := fill_col_maxRow_le _ 1 (n + 1) s1 s2 (m + 1) hd
              have g3 : s2.maxRow ≤ s3.maxRow :=
                manage_valve_settings_maxRow_le file_exists (m + 1) _ n _ _ s2 s3 hv
              have g4 : s3.maxRow ≤ s4.maxRow :=
                get_raw_readings_maxRow_le (m + 1) n rs.raw_passes s3 s4 hr
              have g5 : s4.maxRow ≤ s5.maxRow := fill_col_maxRow_le _ 6 n s4 s5 (m + 1) ha
              have g6 : s5.maxRow ≤ s6.maxRow := get_total_maxRow_le s5 s6 (m + 1) n ht
              have g7 : s6.maxRow ≤ (get_notes s6 (m + 1) n rs.user_note).maxRow :=
                get_notes_maxRow_le s6 (m + 1) n rs.user_note
              have f8 : s'.get r c = (get_notes s6 (m + 1) n rs.user_note).get r c := by
                rw [← hsheet]
                exact add_blank_lines_frame 3 _ m (by omega) r c hr'
              rw [f8, f7, f6, f5, f4, f3, f2, f1]
            · rw [← hcfg]

/-- C1: For every device row of a block, the actual value written in column 6
equals the row's coefficient (column 4) multiplied by its raw reading
(column 5). -/
theorem C1_actual_value_is_product {α : Type} [Mul α] (s s' : Sheet α) (start n : Nat)
    (h : get_actual_values s start n = some s') :
    ∀ i, i < n → ∃ coefficient raw_reading,
      s'.get (start + i) 4 = some (Value.num coefficient) ∧
      s'.get (start + i) 5 = some (Value.num raw_reading) ∧
      s'.get (start + i) 6 = some (Value.num (coefficient * raw_reading)) :=
  get_actual_values_spec n s s' start h

/-- Concrete instance of C1 on the specification's sample block. -/
theorem C1_actual_value_witness :
    ∃ coefficient raw_reading,
      c1_result.get (2 + 0) 4 = some (Value.num coefficient) ∧
      c1_result.get (2 + 0) 5 = some (Value.num raw_reading) ∧
      c1_result.get (2 + 0) 6 = some (Value.num (coefficient * raw_reading)) :=
  C1_actual_value_is_product c1_sheet c1_result 2 3 (by decide) 0 (by decide)

/-- C2: For every block, the total equals the sum of the actual values over
exactly that block's device rows, and it is written exactly once, in the
total column (7) at the row immediately following the last device row
(start_row + device_count); no other cell changes. -/
theorem C2_total_written_once {α : Type} [AddCommMonoid α] (s : Sheet α) (start n : Nat)
    (v : Nat → α) (hv : ∀ i, i < n → s.get (start + i) 6 = some (Value.num (v i))) :
    ∃ s', get_total s start n = some s' ∧
      s'.get (start + n) 7 = some (Value.num (∑ i ∈ Finset.range n, v i)) ∧
      ∀ r c, (r, c) ≠ (start + n, 7) → s'.get r c = s.get r c :=
  get_total_spec s start n v hv

/-- Concrete instance of C2 on the specification's sample block. -/
theorem C2_total_witness :
    ∃ s', get_total c1_result 2 3 = some s' ∧
      s'.get (2 + 3) 7 = some (Value.num (∑ i ∈ Finset.range 3, c2_values i)) ∧
      ∀ r c, (r, c) ≠ (2 + 3, 7) → s'.get r c = c1_result.get r c :=
  C2_total_written_once c1_result 2 3 c2_values
    (by intro i hi; interval_cases i <;> decide)

/-- C3: At the start of every run, the block tracker sets start_row to one
past the ledger's current highest populated row, sets last_start_row to the
start_row recorded by the previous run, defaulting to the just-computed
start_row when no previous record exists, and overwrites the session state
with the new pair, marking it for persistence, before returning. -/
theorem C3_start_rows {α : Type} (s : Sheet α) (cfg : Config) (u : Bool) :
    (update_start_rows s cfg u).1.start_row = some (s.maxRow + 1) ∧
    (update_start_rows s cfg u).1.last_start_row =
      some (cfg.start_row.getD (s.maxRow + 1)) ∧
    (update_start_rows s cfg u).2 = true :=
  ⟨rfl, rfl, rfl⟩

/-- C4 counterexample: after a first run with start_row 2 and 3 devices, the
second run's start_row is 9 (2 + 3 device rows + 1 total row + 3 blank rows),
not 6 as the claim states. -/
theorem C4_counterexample :
    populate_usage false demo_devices demo_script_one header_sheet demo_config_zero false =
      some (demo_sheet_one, demo_config_one, true) ∧
    demo_config_one.start_row = some 2 ∧
    demo_config_one.radiators_owned = 3 ∧
    (update_start_rows demo_sheet_one demo_config_one false).1.start_row = some 9 ∧
    (9 : Nat) ≠ 6 := by
  exact ⟨by decide, by decide, by decide, by decide, by decide⟩

/-- C4 amended: a first-ever run produces last_start_row equal to start_row;
a second run after start_row 2 with 3 devices yields start_row 9
(2 + 3 device rows + 1 total row + 3 blank separator rows) and
last_start_row 2. -/
theorem C4_amended :
    (∀ (α : Type) (s : Sheet α) (cfg : Config) (u : Bool), cfg.start_row = none →
      (update_start_rows s cfg u).1.last_start_row =
        (update_start_rows s cfg u).1.start_row) ∧
    demo_config_one.start_row = some 2 ∧
    demo_config_one.last_start_row = some 2 ∧
    (update_start_rows demo_sheet_one demo_config_one false).1.start_row = some 9 ∧
    (update_start_rows demo_sheet_one demo_config_one false).1.last_start_row = some 2 := by
  refine ⟨?_, by decide, by decide, by decide, by decide⟩
  intro α s cfg u h
  simp [update_start_rows, h]

/-- Concrete instance of the first-run half of the amended C4. -/
theorem C4_amended_witness :
    (update_start_rows header_sheet demo_config_zero false).1.last_start_row =
      (update_start_rows header_sheet demo_config_zero false).1.start_row :=
  C4_amended.1 ℤ header_sheet demo_config_zero false rfl

/-- C5: Constructing a new block never modifies any cell at or below the
previous maximum row (in particular no cell of any prior block), and the new
block's start_row equals the prior maximum row plus one. -/
theorem C5_no_prior_block_modified {α : Type} [Mul α] [Add α] [Zero α] (file_exists : Bool)
    (devices : List (Device α)) (rs : RunScript α) (s : Sheet α) (cfg : Config) (upd : Bool)
    (s' : Sheet α) (cfg' : Config) (upd' : Bool)
    (h : populate_usage file_exists devices rs s cfg upd = some (s', cfg', upd')) :
    (∀ r c, r ≤ s.maxRow → s'.get r c = s.get r c) ∧
      cfg'.start_row = some (s.maxRow + 1) :=
  populate_usage_frame file_exists devices rs s cfg upd s' cfg' upd' h

/-- Concrete instance of C5: a second full run leaves the first block's total
cell untouched and starts one past the previous maximum row. -/
theorem C5_witness :
    demo_sheet_two.get 5 7 = demo_sheet_one.get 5 7 ∧
    demo_config_two.start_row = some (demo_sheet_one.maxRow + 1) := by
  have h := C5_no_prior_block_modified true demo_devices demo_script_two demo_sheet_one
    demo_config_one false demo_sheet_two demo_config_two true (by decide)
  exact ⟨h.1 5 7 (by decide), h.2⟩

/-- C6: If the user declines the change for every device, the carry-forward
update succeeds and the new block's valve_setting column equals the previous
block's values at matching ordinals: the value at row last_start_row + i is
copied verbatim to row start_row + i for every device ordinal i. -/
theorem C6_declined_carry_forward {α : Type} (s : Sheet α) (start last n : Nat)
    (scripts : Nat → List Round)
    (hgeom : ∀ j, j < n → last + j < start)
    (hold : ∀ j, j < n → ∃ v, s.get (last + j) 8 = some (Value.str v))
    (hdecl : ∀ j, j < n → ∃ rd rest, scripts j = rd :: rest ∧ rd.want_change = false) :
    ∃ s' sts, update_valve_setting s start last n scripts = some (s', sts) ∧
      ∀ j, j < n → s'.get (start + j) 8 = s.get (last + j) 8 := by
  obtain ⟨s', sts, hloop, _, hvals⟩ := update_loop_keep start last scripts s n s 0
    (fun r c _ => rfl)
    (fun j hj => by simpa using hgeom j hj)
    (fun j hj => by simpa using hold j hj)
    (fun j hj => by simpa using hdecl j hj)
  exact ⟨s', sts, hloop, fun j hj => by simpa using hvals j hj⟩

/-- Concrete instance of C6 with two devices, both declining. -/
theorem C6_witness :
    ∃ s' sts, update_valve_setting c6_sheet 5 2 2 c6_scripts = some (s', sts) ∧
      ∀ j, j < 2 → s'.get (5 + j) 8 = c6_sheet.get (2 + j) 8 :=
  C6_declined_carry_forward c6_sheet 5 2 2 c6_scripts
    (fun j hj => by omega)
    (fun j hj => by interval_cases j
                    · exact ⟨"3", by decide⟩
                    · exact ⟨"1", by decide⟩)
    (fun j hj => ⟨⟨false, "x", true⟩, [], rfl, rfl⟩)

/-- C7: When the carry-forward updater returns, it has produced one terminal
state per device, each either KEEP or APPLIED, and every device row of the
new block holds a valve_setting value, either copied from the previous block
or freshly entered by the user; no row is left with the field absent. -/
theorem C7_terminal_states {α : Type} (s s' : Sheet α) (start last n : Nat)
    (scripts : Nat → List Round) (sts : List VState)
    (hgeom : ∀ j, j < n → last + j < start)
    (h : update_valve_setting s start last n scripts = some (s', sts)) :
    sts.length = n ∧
    (∀ st ∈ sts, st = VState.keep ∨ st = VState.applied) ∧
    (∀ j, j < n → ∃ v, s'.get (start + j) 8 = some (Value.str v) ∧
      (s.get (last + j) 8 = some (Value.str v) ∨ ∃ rd ∈ scripts j, rd.entry = v)) := by
  obtain ⟨hlen, hsts, hvals⟩ := update_loop_values start last scripts n s s' 0 sts
    (fun j hj => by simpa using hgeom j hj) h
  exact ⟨hlen, hsts, fun j hj => by simpa using hvals j hj⟩

/-- Concrete instance of C7 with one device keeping and one applying. -/
theorem C7_witness :
    c7_sts.length = 2 ∧
    (∀ st ∈ c7_sts, st = VState.keep ∨ st = VState.applied) ∧
    (∀ j, j < 2 → ∃ v, c7_sheet.get (5 + j) 8 = some (Value.str v) ∧
      (c6_sheet.get (2 + j) 8 = some (Value.str v) ∨ ∃ rd ∈ c7_scripts j, rd.entry = v)) :=
  C7_terminal_states c6_sheet c7_sheet 5 2 2 c7_scripts c7_sts
    (fun j hj => by omega) (by decide)

/-- C8 counterexample: with the answer script change-yes, enter 5, reject,
then change-no, the source's loop finishes in KEEP with the old value 2,
because after the rejected confirmation it asks the change? question again;
the specification's machine, which returns to ENTER directly, applies the
next typed value 7 instead. -/
theorem C8_counterexample :
    process_valve_setting_update "2" 5 empty_sheet c8_script =
      some (empty_sheet.set 5 8 (Value.str "2"), VState.keep) ∧
    spec_process_valve_setting_update "2" 5 empty_sheet c8_script =
      some (empty_sheet.set 5 8 (Value.str "7"), VState.applied) ∧
    VState.keep ≠ VState.applied :=
  ⟨by decide, by decide, by decide⟩

/-- C8 amended: when the user rejects the confirmation of an entered new
valve setting, the per-device loop restarts from the initial change? review
question (state REVIEW), not from ENTER: the rejected cycle is discarded
whole and the remaining script is processed as if the device were being
reviewed afresh. -/
theorem C8_amended {α : Type} (current : String) (new_row : Nat) (s : Sheet α)
    (e : String) (rest : List Round) :
    process_valve_setting_update current new_row s (⟨true, e, false⟩ :: rest) =
      process_valve_setting_update current new_row s rest :=
  rfl

/-- C9: After finalization, the notes value sits at exactly one row, the
block's first row, column 9, holding the user's note if accepted or the
default text if the yes/no gate is declined, and the merged notes region
spans exactly the block's device rows in column 9. -/
theorem C9_notes_single_cell {α : Type} (s : Sheet α) (start n : Nat)
    (user_note : Option String)
    (hblank : ∀ i, 0 < i → i < n → s.get (start + i) 9 = none) :
    (get_notes s start n user_note).get start 9 =
      some (Value.str (user_note.getD "No additional notes.")) ∧
    (∀ i, 0 < i → i < n → (get_notes s start n user_note).get (start + i) 9 = none) ∧
    (get_notes s start n user_note).merges.head? = some (start, start + n - 1, 9, 9) := by
  refine ⟨?_, ?_, ?_⟩
  · exact Sheet.get_set_same _ start 9 _
  · intro i h0 hi
    rw [get_notes_frame s start n user_note (start + i) 9
      (by intro hk; rw [Prod.mk.injEq] at hk; omega)]
    exact hblank i h0 hi
  · rfl

/-- Concrete instance of C9, with the note gate accepted and declined. -/
theorem C9_notes_witness :
    ((get_notes empty_sheet 2 3 (some "hello")).get 2 9 =
      some (Value.str ((some "hello").getD "No additional notes.")) ∧
    (∀ i, 0 < i → i < 3 → (get_notes empty_sheet 2 3 (some "hello")).get (2 + i) 9 = none) ∧
    (get_notes empty_sheet 2 3 (some "hello")).merges.head? = some (2, 2 + 3 - 1, 9, 9)) :=
  C9_notes_single_cell empty_sheet 2 3 (some "hello")
    (fun i h0 hi => by interval_cases i <;> decide)

/-- C10: One single formatted date string is written into the date column
(column 1) of every device row of the new block and of the row immediately
following the last device row (the total row at start_row + device_count). -/
theorem C10_dates_cover_block_and_total {α : Type} (s : Sheet α) (date : String)
    (start n : Nat) :
    ∃ s', fill_dates s date start n = some s' ∧
      ∀ i, i ≤ n → s'.get (start + i) 1 = some (Value.str date) := by
  obtain ⟨s', hs', hvals⟩ := fill_col_pure (fun _ => Value.str date) 1 (n + 1) s start
  exact ⟨s', hs', fun i hi => hvals i (by omega)⟩

/-- Concrete instance of C10: the date lands on the total row too. -/
theorem C10_dates_witness :
    ∃ s', fill_dates empty_sheet "01/10/2025" 2 3 = some s' ∧
      s'.get (2 + 3) 1 = some (Value.str "01/10/2025") := by
  obtain ⟨s', h1, h2⟩ := C10_dates_cover_block_and_total empty_sheet "01/10/2025" 2 3
  exact ⟨s', h1, h2 3 (by omega)⟩
